import Mathlib

/-!  Shallow embedding of the toy banking system (Banking_System.cpp and its
near-duplicate variants).  C++ `double` amounts are modelled as rationals;
the append-only transaction log is a `List String`; a C++ `throw` inside a
member function is modelled by returning `Except.error` together with the
state at the moment of the throw (the code always throws before mutating). -/

/-- Models BankAccount::formatAmount / the `fixed << setprecision(2)` stream
formatting: a two-decimal fixed-point rendering of the amount, rounding the
(rational-embedded) value to the nearest cent. -/
def formatAmount (amount : ℚ) : String :=
  let cents : ℤ := round (amount * 100)
  let sign : String := if cents < 0 then ("-") else ("")
  let n : ℕ := cents.natAbs
  sign ++ toString (n / 100) ++ (".") ++ (if n % 100 < 10 then ("0") else ("")) ++ toString (n % 100)

/-- Models InterestCalculator::calculateInterest: `balance * (rate / 100.0)`. -/
def InterestCalculator.calculateInterest (balance rate : ℚ) : ℚ :=
  balance * (rate / 100)

/-- Models OverdraftProtection::canWithdraw: `amount <= balance + overdraft`. -/
def OverdraftProtection.canWithdraw (balance overdraft amount : ℚ) : Bool :=
  decide (amount ≤ balance + overdraft)

/-- Savings account state: the BankAccount base fields (owner, balance,
transactionHistory) plus SavingsAccount::interestRate. -/
structure SavingsAccount where
  owner : String
  balance : ℚ
  interestRate : ℚ
  transactionHistory : List String
deriving DecidableEq

/-- Checking account state: the BankAccount base fields plus
CheckingAccount::overdraftLimit. -/
structure CheckingAccount where
  owner : String
  balance : ℚ
  overdraftLimit : ℚ
  transactionHistory : List String
deriving DecidableEq

/-- Models BankAccount::addTransaction: `transactionHistory.push_back(t)`. -/
def SavingsAccount.addTransaction (acc : SavingsAccount) (t : String) : SavingsAccount :=
  { acc with transactionHistory := acc.transactionHistory ++ [t] }

/-- Models BankAccount::addTransaction on a checking account. -/
def CheckingAccount.addTransaction (acc : CheckingAccount) (t : String) : CheckingAccount :=
  { acc with transactionHistory := acc.transactionHistory ++ [t] }

/-- Models SavingsAccount::deposit: `balance += amount` then log the deposit. -/
def SavingsAccount.deposit (acc : SavingsAccount) (amount : ℚ) : SavingsAccount :=
  ({ acc with balance := acc.balance + amount }).addTransaction
    (("Deposited: $") ++ formatAmount amount)

/-- Models SavingsAccount::withdraw: throw "Insufficient funds" when
`amount > balance`, else `balance -= amount` and log the withdrawal.
The second component is the account state after the call (unchanged when
the exception is thrown, since the throw precedes any mutation). -/
def SavingsAccount.withdraw (acc : SavingsAccount) (amount : ℚ) :
    Except String Unit × SavingsAccount :=
  if amount > acc.balance then
    (Except.error ("Insufficient funds"), acc)
  else
    (Except.ok (),
      ({ acc with balance := acc.balance - amount }).addTransaction
        (("Withdrawn: $") ++ formatAmount amount))

/-- Models SavingsAccount::applyInterest: compute the interest from the
current balance, deposit it (logging a deposit entry), then log an
"Interest Applied" entry for the same amount. -/
def SavingsAccount.applyInterest (acc : SavingsAccount) : SavingsAccount :=
  let interest := InterestCalculator.calculateInterest acc.balance acc.interestRate
  (acc.deposit interest).addTransaction (("Interest Applied: $") ++ formatAmount interest)

/-- Models CheckingAccount::deposit: `balance += amount` then log the deposit. -/
def CheckingAccount.deposit (acc : CheckingAccount) (amount : ℚ) : CheckingAccount :=
  ({ acc with balance := acc.balance + amount }).addTransaction
    (("Deposited: $") ++ formatAmount amount)

/-- Models CheckingAccount::withdraw: throw "Overdraft limit exceeded" when
OverdraftProtection::canWithdraw fails, else `balance -= amount` and log. -/
def CheckingAccount.withdraw (acc : CheckingAccount) (amount : ℚ) :
    Except String Unit × CheckingAccount :=
  if OverdraftProtection.canWithdraw acc.balance acc.overdraftLimit amount then
    (Except.ok (),
      ({ acc with balance := acc.balance - amount }).addTransaction
        (("Withdrawn: $") ++ formatAmount amount))
  else
    (Except.error ("Overdraft limit exceeded"), acc)

/-- The polymorphic BankAccount base: a closed sum of the two variants, as
used behind `BankAccount*` by the directory and the dispatcher. -/
inductive BankAccount where
  | savings : SavingsAccount → BankAccount
  | checking : CheckingAccount → BankAccount
deriving DecidableEq

/-- Models BankAccount::getOwner. -/
def BankAccount.getOwner : BankAccount → String
  | .savings s => s.owner
  | .checking c => c.owner

/-- Models BankAccount::getBalance. -/
def BankAccount.getBalance : BankAccount → ℚ
  | .savings s => s.balance
  | .checking c => c.balance

/-- The protected transactionHistory field of the base class. -/
def BankAccount.transactionHistory : BankAccount → List String
  | .savings s => s.transactionHistory
  | .checking c => c.transactionHistory

/-- Virtual dispatch of deposit. -/
def BankAccount.deposit : BankAccount → ℚ → BankAccount
  | .savings s, a => .savings (s.deposit a)
  | .checking c, a => .checking (c.deposit a)

/-- Virtual dispatch of withdraw; second component is the post-call state. -/
def BankAccount.withdraw : BankAccount → ℚ → Except String Unit × BankAccount
  | .savings s, a => ((s.withdraw a).1, .savings (s.withdraw a).2)
  | .checking c, a => ((c.withdraw a).1, .checking (c.withdraw a).2)

/-- Models SavingsAccount::display / CheckingAccount::display: the one-line
summary printed for the account (stream stays in fixed two-decimal mode, so
the rate and limit are rendered with formatAmount as well). -/
def BankAccount.display : BankAccount → String
  | .savings s =>
      ("Savings Account: ") ++ s.owner ++ (" | Balance: $") ++ formatAmount s.balance ++
        (" | Interest Rate: ") ++ formatAmount s.interestRate ++ ("%\n")
  | .checking c =>
      ("Checking Account: ") ++ c.owner ++ (" | Balance: $") ++ formatAmount c.balance ++
        (" | Overdraft Limit: $") ++ formatAmount c.overdraftLimit ++ ("\n")

/-- Models BankAccount::displayTransactionHistory: header line then each
logged entry on its own line, oldest first. -/
def BankAccount.displayTransactionHistory (acc : BankAccount) : String :=
  ("Transaction History for ") ++ acc.getOwner ++ (":\n") ++
    String.join (acc.transactionHistory.map (fun t => t ++ ("\n")))

/-- The linked-list directory CustomerList: the list of accounts from `head`
following `next`, so the front of the Lean list is the head node. -/
abbrev CustomerList := List BankAccount

/-- Models CustomerList::addCustomer: the new node is pushed at the front. -/
def CustomerList.addCustomer (l : CustomerList) (account : BankAccount) : CustomerList :=
  account :: l

/-- Models CustomerList::deleteCustomer: unlink and delete the first node
whose owner matches; return whether a match was found, with the list after. -/
def CustomerList.deleteCustomer : CustomerList → String → Bool × CustomerList
  | [], _ => (false, [])
  | a :: rest, name =>
    if a.getOwner = name then (true, rest)
    else
      let r := CustomerList.deleteCustomer rest name
      (r.1, a :: r.2)

/-- Models CustomerList::getCustomerByName: linear scan, first match wins. -/
def CustomerList.getCustomerByName : CustomerList → String → Option BankAccount
  | [], _ => none
  | a :: rest, name =>
      if a.getOwner = name then some a else CustomerList.getCustomerByName rest name

/-- Models CustomerList::displayAll: each account's display output, in list
order (head first). -/
def CustomerList.displayAll (l : CustomerList) : List String :=
  l.map BankAccount.display

/-- The vector-backed directory AccountManager from the duplicate variant. -/
abbrev AccountManager := List BankAccount

/-- Models AccountManager::addAccount: `accounts.push_back(...)` appends. -/
def AccountManager.addAccount (m : AccountManager) (account : BankAccount) : AccountManager :=
  m ++ [account]

/-- Models AccountManager::getAccount: linear scan, first match wins. -/
def AccountManager.getAccount : AccountManager → String → Option BankAccount
  | [], _ => none
  | a :: rest, name =>
      if a.getOwner = name then some a else AccountManager.getAccount rest name

/-- Models AccountManager::displayAccounts: display output in vector order. -/
def AccountManager.displayAccounts (m : AccountManager) : List String :=
  m.map BankAccount.display

/-- One menu choice of performBankingOperations, with its parsed amount. -/
inductive MenuOp where
  | deposit (amount : ℚ)
  | withdraw (amount : ℚ)
  | showAccount
  | showHist
  | applyInt
deriving DecidableEq

/-- Models the switch body of performBankingOperations in Banking_System.cpp
for an already-resolved account: the message printed and the account state
afterwards.  A withdrawal failure is caught (`catch`) and turned into an
"Error: ..." message; apply-interest checks the capability via
`dynamic_cast<SavingsAccount*>` and reports when it is absent. -/
def performOperation (account : BankAccount) : MenuOp → String × BankAccount
  | .deposit a => (("Deposit successful."), account.deposit a)
  | .withdraw a =>
      match account.withdraw a with
      | (Except.ok _, acc') => (("Withdrawal successful."), acc')
      | (Except.error e, acc') => (("Error: ") ++ e, acc')
  | .showAccount => (account.display, account)
  | .showHist => (account.displayTransactionHistory, account)
  | .applyInt =>
      match account with
      | .savings s => (("Interest applied."), .savings s.applyInterest)
      | .checking c => (("Interest can only be applied to savings accounts."), .checking c)

/-- Runs a sequence of dispatched menu operations on one account. -/
def runOps (account : BankAccount) (ops : List MenuOp) : BankAccount :=
  ops.foldl (fun acc op => (performOperation acc op).2) account

/-- Holds when the operation is not a deposit of a negative amount. -/
def MenuOp.depositNonneg : MenuOp → Bool
  | .deposit a => decide (0 ≤ a)
  | _ => true

/-! Claim theorems -/

/-- C1: For every Savings account and every amount a, withdraw(a) succeeds
iff a ≤ balance; on success the new balance is the old balance minus a and a
"Withdrawn: $X.XX" entry is appended; on failure it raises InsufficientFunds
("Insufficient funds") and the account state is unchanged. -/
theorem savings_withdraw_spec (s : SavingsAccount) (a : ℚ) :
    ((s.withdraw a).1 = Except.ok () ↔ a ≤ s.balance) ∧
    (a ≤ s.balance →
      (s.withdraw a).2.balance = s.balance - a ∧
      (s.withdraw a).2.transactionHistory
        = s.transactionHistory ++ [("Withdrawn: $") ++ formatAmount a]) ∧
    (¬ a ≤ s.balance →
      (s.withdraw a).1 = Except.error ("Insufficient funds") ∧ (s.withdraw a).2 = s) := by
  unfold SavingsAccount.withdraw
  by_cases h : a > s.balance
  · simp [h, not_le.mpr h]
  · simp [h, not_lt.mp h, SavingsAccount.addTransaction]

/-- C1 witness: on the concrete Savings account (Alice, 5000, rate 2.5)
withdrawing 2000 yields balance 3000. -/
theorem savings_withdraw_spec_witness :
    ((SavingsAccount.mk ("Alice") 5000 (5/2) []).withdraw 2000).2.balance = 3000 := by
  have h :=
    ((savings_withdraw_spec (SavingsAccount.mk ("Alice") 5000 (5/2) []) 2000).2.1
      (by norm_num)).1
  rw [h]; norm_num

/-- C2: For every Checking account and every amount a, withdraw(a) succeeds
iff a ≤ balance + overdraftLimit; on success the new balance is the old
balance minus a (never below -overdraftLimit) and a "Withdrawn: $X.XX" entry
is appended; on failure it raises OverdraftExceeded ("Overdraft limit
exceeded") and the account state is unchanged. -/
theorem checking_withdraw_spec (c : CheckingAccount) (a : ℚ) :
    ((c.withdraw a).1 = Except.ok () ↔ a ≤ c.balance + c.overdraftLimit) ∧
    (a ≤ c.balance + c.overdraftLimit →
      (c.withdraw a).2.balance = c.balance - a ∧
      -c.overdraftLimit ≤ (c.withdraw a).2.balance ∧
      (c.withdraw a).2.transactionHistory
        = c.transactionHistory ++ [("Withdrawn: $") ++ formatAmount a]) ∧
    (¬ a ≤ c.balance + c.overdraftLimit →
      (c.withdraw a).1 = Except.error ("Overdraft limit exceeded") ∧ (c.withdraw a).2 = c) := by
  unfold CheckingAccount.withdraw OverdraftProtection.canWithdraw
  by_cases h : a ≤ c.balance + c.overdraftLimit
  · have hb : -c.overdraftLimit ≤ c.balance - a := by linarith
    simp [h, CheckingAccount.addTransaction, hb]
  · simp [h]

/-- C2 witness: on the concrete Checking account (Bob, 1500, limit 500)
withdrawing 1200 yields balance 300, which is at least -500. -/
theorem checking_withdraw_spec_witness :
    ((CheckingAccount.mk ("Bob") 1500 500 []).withdraw 1200).2.balance = 300 ∧
    -(500 : ℚ) ≤ ((CheckingAccount.mk ("Bob") 1500 500 []).withdraw 1200).2.balance := by
  have h :=
    (checking_withdraw_spec (CheckingAccount.mk ("Bob") 1500 500 []) 1200).2.1
      (by norm_num)
  refine ⟨?_, ?_⟩
  · rw [h.1]; norm_num
  · exact h.2.1

/-- C4: applyInterest on a Savings account with balance B and rate R deposits
the interest B * R/100 computed on the balance before the deposit, leaves the
balance at B * (1 + R/100), and appends exactly two entries in order: a
"Deposited: $X.XX" entry for the interest, then an "Interest Applied: $X.XX"
entry for the same amount. -/
theorem applyInterest_spec (s : SavingsAccount) :
    s.applyInterest.balance = s.balance * (1 + s.interestRate / 100) ∧
    s.applyInterest.transactionHistory
      = s.transactionHistory ++
        [("Deposited: $") ++ formatAmount (s.balance * (s.interestRate / 100)),
         ("Interest Applied: $") ++ formatAmount (s.balance * (s.interestRate / 100))] := by
  unfold SavingsAccount.applyInterest InterestCalculator.calculateInterest
  constructor
  · simp [SavingsAccount.deposit, SavingsAccount.addTransaction]
    ring
  · simp [SavingsAccount.deposit, SavingsAccount.addTransaction]

/-- C5: For every account (Savings or Checking) and every amount a (any sign,
no validation at the account layer), deposit(a) adds a to the balance and
appends exactly one "Deposited: $X.XX" entry. -/
theorem deposit_spec (acc : BankAccount) (a : ℚ) :
    (acc.deposit a).getBalance = acc.getBalance + a ∧
    (acc.deposit a).transactionHistory
      = acc.transactionHistory ++ [("Deposited: $") ++ formatAmount a] := by
  cases acc <;>
    simp [BankAccount.deposit, BankAccount.getBalance, BankAccount.transactionHistory,
      SavingsAccount.deposit, CheckingAccount.deposit,
      SavingsAccount.addTransaction, CheckingAccount.addTransaction]

/-- C10: Every account-layer operation (deposit, withdraw whether it succeeds
or fails, applyInterest) leaves the owner name and the variant parameter
(interestRate / overdraftLimit) unchanged, and only appends to the
transaction history (existing entries are neither removed nor reordered). -/
theorem account_frame_spec (s : SavingsAccount) (c : CheckingAccount) (a : ℚ) :
    ((s.deposit a).owner = s.owner ∧ (s.deposit a).interestRate = s.interestRate ∧
      ∃ t, (s.deposit a).transactionHistory = s.transactionHistory ++ t) ∧
    ((s.withdraw a).2.owner = s.owner ∧ (s.withdraw a).2.interestRate = s.interestRate ∧
      ∃ t, (s.withdraw a).2.transactionHistory = s.transactionHistory ++ t) ∧
    (s.applyInterest.owner = s.owner ∧ s.applyInterest.interestRate = s.interestRate ∧
      ∃ t, s.applyInterest.transactionHistory = s.transactionHistory ++ t) ∧
    ((c.deposit a).owner = c.owner ∧ (c.deposit a).overdraftLimit = c.overdraftLimit ∧
      ∃ t, (c.deposit a).transactionHistory = c.transactionHistory ++ t) ∧
    ((c.withdraw a).2.owner = c.owner ∧ (c.withdraw a).2.overdraftLimit = c.overdraftLimit ∧
      ∃ t, (c.withdraw a).2.transactionHistory = c.transactionHistory ++ t) := by
  refine ⟨⟨rfl, rfl, ⟨_, rfl⟩⟩, ?_, ⟨rfl, rfl, ?_⟩, ⟨rfl, rfl, ⟨_, rfl⟩⟩, ?_⟩
  · unfold SavingsAccount.withdraw
    by_cases h : a > s.balance
    · simp [h]
    · simp [h, SavingsAccount.addTransaction]
  · refine ⟨[("Deposited: $") ++ formatAmount (InterestCalculator.calculateInterest s.balance s.interestRate),
      ("Interest Applied: $") ++ formatAmount (InterestCalculator.calculateInterest s.balance s.interestRate)], ?_⟩
    simp [SavingsAccount.applyInterest, SavingsAccount.deposit, SavingsAccount.addTransaction]
  · unfold CheckingAccount.withdraw
    by_cases h : OverdraftProtection.canWithdraw c.balance c.overdraftLimit a
    · simp [h, CheckingAccount.addTransaction]
    · simp [h]

/-- Helper: folding addCustomer prepends, so the result is the reversed
insertion sequence in front of the initial list. -/
lemma foldl_addCustomer (accts : List BankAccount) (init : CustomerList) :
    accts.foldl CustomerList.addCustomer init = accts.reverse ++ init := by
  induction accts generalizing init with
  | nil => simp
  | cons a t ih => simp [CustomerList.addCustomer, ih]

/-- Helper: folding addAccount appends, so the result is the initial list
followed by the insertion sequence in order. -/
lemma foldl_addAccount (accts : List BankAccount) (init : AccountManager) :
    accts.foldl AccountManager.addAccount init = init ++ accts := by
  induction accts generalizing init with
  | nil => simp
  | cons a t ih => simp [AccountManager.addAccount, ih]

/-- C7: For every sequence of adds starting from an empty directory, listing
all accounts produces each account's display output, in insertion order for
the vector-backed AccountManager and in reverse insertion order for the
prepend-based linked-list CustomerList. -/
theorem listAll_order_spec (accts : List BankAccount) :
    CustomerList.displayAll (accts.foldl CustomerList.addCustomer [])
      = (accts.reverse).map BankAccount.display ∧
    AccountManager.displayAccounts (accts.foldl AccountManager.addAccount [])
      = accts.map BankAccount.display := by
  constructor
  · rw [CustomerList.displayAll, foldl_addCustomer]
    simp
  · rw [AccountManager.displayAccounts, foldl_addAccount]
    simp

/-- Helper: a name matched by no account in the list is not found. -/
lemma getCustomerByName_eq_none (l : CustomerList) (name : String)
    (h : ∀ b ∈ l, b.getOwner ≠ name) :
    CustomerList.getCustomerByName l name = none := by
  induction l with
  | nil => rfl
  | cons a rest ih =>
      have ha : a.getOwner ≠ name := h a (by simp)
      simp [CustomerList.getCustomerByName, ha]
      exact ih (fun b hb => h b (by simp [hb]))

/-- C6 counterexample: the claim fails as stated.  In the linked-list
directory holding two accounts both owned by "A", deleteCustomer "A" returns
true yet getCustomerByName "A" still finds the second duplicate; and in the
append-based AccountManager already holding an account owned by "A", adding
a second "A" account leaves lookup returning the old account, not the
just-added one. -/
theorem directory_add_find_remove_cex :
    ((CustomerList.deleteCustomer
        [BankAccount.savings (SavingsAccount.mk ("A") 1 0 []),
         BankAccount.savings (SavingsAccount.mk ("A") 2 0 [])] ("A")).1 = true ∧
      CustomerList.getCustomerByName
        (CustomerList.deleteCustomer
          [BankAccount.savings (SavingsAccount.mk ("A") 1 0 []),
           BankAccount.savings (SavingsAccount.mk ("A") 2 0 [])] ("A")).2 ("A") ≠ none) ∧
    (AccountManager.getAccount
        (AccountManager.addAccount [BankAccount.savings (SavingsAccount.mk ("A") 1 0 [])]
          (BankAccount.savings (SavingsAccount.mk ("A") 2 0 []))) ("A")
      ≠ some (BankAccount.savings (SavingsAccount.mk ("A") 2 0 []))) := by
  refine ⟨⟨?_, ?_⟩, ?_⟩ <;> decide

/-- C6 (amended): in the linked-list directory, find after add always
returns the just-added account (insertion prepends, so it is the first
match); in the append-based AccountManager this holds provided no already
contained account has the same owner name; and after deleteCustomer(name)
returns true, find(name) returns absent provided the directory held at most
one account with that owner name. -/
theorem directory_add_find_remove_spec (l : CustomerList) (m : AccountManager)
    (a : BankAccount) (name : String) :
    CustomerList.getCustomerByName (CustomerList.addCustomer l a) a.getOwner = some a ∧
    ((∀ b ∈ m, b.getOwner ≠ a.getOwner) →
      AccountManager.getAccount (AccountManager.addAccount m a) a.getOwner = some a) ∧
    ((CustomerList.deleteCustomer l name).1 = true →
      l.countP (fun b => b.getOwner = name) ≤ 1 →
      CustomerList.getCustomerByName (CustomerList.deleteCustomer l name).2 name = none) := by
  refine ⟨?_, ?_, ?_⟩
  · simp [CustomerList.addCustomer, CustomerList.getCustomerByName]
  · intro hm
    induction m with
    | nil => simp [AccountManager.addAccount, AccountManager.getAccount]
    | cons b rest ih =>
        have hb : b.getOwner ≠ a.getOwner := hm b (by simp)
        simp [AccountManager.addAccount, AccountManager.getAccount, hb] at ih ⊢
        exact ih (fun x hx => hm x (by simp [hx]))
  · induction l with
    | nil => intro h; simp [CustomerList.deleteCustomer] at h
    | cons b rest ih =>
        intro hfound hcount
        by_cases hb : b.getOwner = name
        · have hc : rest.countP (fun x => x.getOwner = name) = 0 := by
            rw [List.countP_cons, if_pos (by simp [hb])] at hcount
            omega
          have hnone : ∀ x ∈ rest, x.getOwner ≠ name := by
            intro x hx
            have := List.countP_eq_zero.mp hc x hx
            simpa using this
          simp [CustomerList.deleteCustomer, hb]
          exact getCustomerByName_eq_none rest name hnone
        · simp [CustomerList.deleteCustomer, hb] at hfound ⊢
          rw [List.countP_cons, if_neg (by simp [hb])] at hcount
          simp [CustomerList.getCustomerByName, hb]
          exact ih hfound (by simpa using hcount)

/-- C6 witness: with a one-element directory owned by "A", deleting "A"
succeeds and a subsequent lookup of "A" finds nothing; adding an account
for "B" to an empty AccountManager makes it findable. -/
theorem directory_add_find_remove_spec_witness :
    CustomerList.getCustomerByName
      (CustomerList.deleteCustomer
        [BankAccount.savings (SavingsAccount.mk ("A") 1 0 [])] ("A")).2 ("A") = none ∧
    AccountManager.getAccount
      (AccountManager.addAccount [] (BankAccount.savings (SavingsAccount.mk ("B") 1 0 [])))
      ((BankAccount.savings (SavingsAccount.mk ("B") 1 0 [])).getOwner) = some
      (BankAccount.savings (SavingsAccount.mk ("B") 1 0 [])) := by
  constructor
  · exact (directory_add_find_remove_spec
      [BankAccount.savings (SavingsAccount.mk ("A") 1 0 [])] []
      (BankAccount.savings (SavingsAccount.mk ("A") 1 0 [])) ("A")).2.2
      (by decide) (by decide)
  · exact (directory_add_find_remove_spec [] []
      (BankAccount.savings (SavingsAccount.mk ("B") 1 0 [])) ("B")).2.1
      (by intro b hb; simp at hb)

/-- Helper: when the virtual withdraw reports an exception, the account
state it leaves behind is exactly the original one (the throw happens
before any mutation). -/
lemma withdraw_error_state (acc : BankAccount) (a : ℚ) (e : String)
    (h : (acc.withdraw a).1 = Except.error e) : (acc.withdraw a).2 = acc := by
  cases acc with
  | savings s =>
      simp only [BankAccount.withdraw] at h ⊢
      by_cases hc : a > s.balance
      · unfold SavingsAccount.withdraw
        simp [hc]
      · unfold SavingsAccount.withdraw at h
        simp [hc] at h
  | checking c =>
      simp only [BankAccount.withdraw] at h ⊢
      by_cases hc : OverdraftProtection.canWithdraw c.balance c.overdraftLimit a
      · unfold CheckingAccount.withdraw at h
        simp [hc] at h
      · unfold CheckingAccount.withdraw
        simp [hc]

/-- C8: At the dispatch boundary, apply-interest on a resolved account that
is not interest-bearing (a Checking account, where the dynamic capability
check fails) reports "Interest can only be applied to savings accounts."
and mutates neither balance nor history; and any domain failure raised by
withdraw is caught there and converted to an "Error: ..." message with the
account state unchanged, so the dispatch of an operation is a total function
and nothing propagates further. -/
theorem dispatcher_spec (acc : BankAccount) (c : CheckingAccount) (a : ℚ) (e : String) :
    performOperation (BankAccount.checking c) MenuOp.applyInt
      = (("Interest can only be applied to savings accounts."), BankAccount.checking c) ∧
    ((acc.withdraw a).1 = Except.error e →
      performOperation acc (MenuOp.withdraw a) = (("Error: ") ++ e, acc)) := by
  refine ⟨rfl, ?_⟩
  intro h
  have h2 : (acc.withdraw a).2 = acc := withdraw_error_state acc a e h
  have hp : acc.withdraw a = (Except.error e, acc) := Prod.ext_iff.mpr ⟨h, h2⟩
  simp [performOperation, hp]

/-- C8 witness: withdrawing 5 from a Savings account with balance 0 is
dispatched to the caught-error outcome with the account unchanged. -/
theorem dispatcher_spec_witness :
    performOperation (BankAccount.savings (SavingsAccount.mk ("A") 0 0 []))
        (MenuOp.withdraw 5)
      = (("Error: ") ++ ("Insufficient funds"),
         BankAccount.savings (SavingsAccount.mk ("A") 0 0 [])) := by
  exact (dispatcher_spec (BankAccount.savings (SavingsAccount.mk ("A") 0 0 []))
    (CheckingAccount.mk ("L") 0 0 []) 5 ("Insufficient funds")).2
    (by unfold BankAccount.withdraw SavingsAccount.withdraw
        norm_num)

/-- C9 counterexample: the claim fails as stated.  A Checking account with
balance 0 (which is ≥ 0) but overdraftLimit -100 rejects the negative
withdrawal of -1, because -1 ≤ 0 + (-100) is false; so acceptance is not
automatic whenever balance ≥ 0. -/
theorem negative_withdraw_cex :
    (-1 : ℚ) < 0 ∧ (0 : ℚ) ≤ (CheckingAccount.mk ("Bob") 0 (-100) []).balance ∧
    ((CheckingAccount.mk ("Bob") 0 (-100) []).withdraw (-1)).1
      = Except.error ("Overdraft limit exceeded") := by
  refine ⟨by norm_num, by norm_num, ?_⟩
  unfold CheckingAccount.withdraw OverdraftProtection.canWithdraw
  norm_num

/-- C9 (amended): at the account layer a negative withdrawal amount a < 0 is
accepted whenever it passes the variant's guard (Savings: a ≤ balance,
always so when balance ≥ 0; Checking: a ≤ balance + overdraftLimit, always
so when balance ≥ 0 and overdraftLimit ≥ 0), and on acceptance it increases
the balance by -a and appends a "Withdrawn: $X.XX" entry formatting the
negative amount. -/
theorem negative_withdraw_spec (s : SavingsAccount) (c : CheckingAccount) (a : ℚ)
    (ha : a < 0) :
    (a ≤ s.balance →
      (s.withdraw a).1 = Except.ok () ∧
      (s.withdraw a).2.balance = s.balance + (-a) ∧
      (s.withdraw a).2.transactionHistory
        = s.transactionHistory ++ [("Withdrawn: $") ++ formatAmount a]) ∧
    (a ≤ c.balance + c.overdraftLimit →
      (c.withdraw a).1 = Except.ok () ∧
      (c.withdraw a).2.balance = c.balance + (-a) ∧
      (c.withdraw a).2.transactionHistory
        = c.transactionHistory ++ [("Withdrawn: $") ++ formatAmount a]) ∧
    (0 ≤ s.balance → (s.withdraw a).1 = Except.ok ()) ∧
    (0 ≤ c.balance → 0 ≤ c.overdraftLimit → (c.withdraw a).1 = Except.ok ()) := by
  refine ⟨?_, ?_, ?_, ?_⟩
  · intro h
    unfold SavingsAccount.withdraw
    simp [not_lt.mpr h, SavingsAccount.addTransaction, sub_eq_add_neg]
  · intro h
    unfold CheckingAccount.withdraw OverdraftProtection.canWithdraw
    simp [h, CheckingAccount.addTransaction, sub_eq_add_neg]
  · intro h
    have hle : a ≤ s.balance := le_trans (le_of_lt ha) h
    unfold SavingsAccount.withdraw
    simp [not_lt.mpr hle]
  · intro h1 h2
    have hle : a ≤ c.balance + c.overdraftLimit := by linarith
    unfold CheckingAccount.withdraw OverdraftProtection.canWithdraw
    simp [hle]

/-- C9 witness: withdrawing -5 from a Savings account with balance 10
succeeds and raises the balance to 15. -/
theorem negative_withdraw_spec_witness :
    ((SavingsAccount.mk ("Alice") 10 0 []).withdraw (-5)).1 = Except.ok () ∧
    ((SavingsAccount.mk ("Alice") 10 0 []).withdraw (-5)).2.balance = 15 := by
  have h := (negative_withdraw_spec (SavingsAccount.mk ("Alice") 10 0 [])
    (CheckingAccount.mk ("Bob") 10 500 []) (-5) (by norm_num)).1 (by norm_num)
  exact ⟨h.1, by rw [h.2.1]; norm_num⟩

/-- Helper: one dispatched operation on a Savings account stays a Savings
account, preserves the interest rate, and keeps the balance non-negative
when the rate is non-negative and a deposited amount is non-negative. -/
lemma savings_step_inv (s : SavingsAccount) (op : MenuOp)
    (hb : 0 ≤ s.balance) (hr : 0 ≤ s.interestRate) (hop : op.depositNonneg = true) :
    ∃ s', (performOperation (BankAccount.savings s) op).2 = BankAccount.savings s'
      ∧ 0 ≤ s'.balance ∧ s'.interestRate = s.interestRate := by
  cases op with
  | deposit a =>
      have ha : 0 ≤ a := by simpa [MenuOp.depositNonneg] using hop
      refine ⟨s.deposit a, rfl, ?_, rfl⟩
      simp only [SavingsAccount.deposit, SavingsAccount.addTransaction]
      linarith
  | withdraw a =>
      refine ⟨(s.withdraw a).2, ?_, ?_, ?_⟩
      · rcases hw : s.withdraw a with ⟨r, st⟩
        cases r <;> simp [performOperation, BankAccount.withdraw, hw]
      · unfold SavingsAccount.withdraw
        by_cases hc : a > s.balance
        · rw [if_pos hc]
          exact hb
        · rw [if_neg hc]
          show (0 : ℚ) ≤ s.balance - a
          have := not_lt.mp hc
          linarith
      · unfold SavingsAccount.withdraw
        by_cases hc : a > s.balance <;> simp [hc, SavingsAccount.addTransaction]
  | showAccount => exact ⟨s, rfl, hb, rfl⟩
  | showHist => exact ⟨s, rfl, hb, rfl⟩
  | applyInt =>
      refine ⟨s.applyInterest, rfl, ?_, rfl⟩
      have hi : 0 ≤ s.balance * (s.interestRate / 100) :=
        mul_nonneg hb (div_nonneg hr (by norm_num))
      simp only [SavingsAccount.applyInterest, InterestCalculator.calculateInterest,
        SavingsAccount.deposit, SavingsAccount.addTransaction]
      linarith

/-- Helper: one dispatched operation on a Checking account stays a Checking
account, preserves the overdraft limit, and keeps the balance at or above
the negated limit when a deposited amount is non-negative (apply-interest is
rejected by the capability check and changes nothing). -/
lemma checking_step_inv (c : CheckingAccount) (op : MenuOp)
    (hb : -c.overdraftLimit ≤ c.balance) (hop : op.depositNonneg = true) :
    ∃ c', (performOperation (BankAccount.checking c) op).2 = BankAccount.checking c'
      ∧ -c.overdraftLimit ≤ c'.balance ∧ c'.overdraftLimit = c.overdraftLimit := by
  cases op with
  | deposit a =>
      have ha : 0 ≤ a := by simpa [MenuOp.depositNonneg] using hop
      refine ⟨c.deposit a, rfl, ?_, rfl⟩
      simp only [CheckingAccount.deposit, CheckingAccount.addTransaction]
      linarith
  | withdraw a =>
      refine ⟨(c.withdraw a).2, ?_, ?_, ?_⟩
      · rcases hw : c.withdraw a with ⟨r, st⟩
        cases r <;> simp [performOperation, BankAccount.withdraw, hw]
      · by_cases hc : a ≤ c.balance + c.overdraftLimit
        · have hc' : OverdraftProtection.canWithdraw c.balance c.overdraftLimit a = true := by
            simp [OverdraftProtection.canWithdraw, hc]
          unfold CheckingAccount.withdraw
          rw [if_pos hc']
          show -c.overdraftLimit ≤ c.balance - a
          linarith
        · have hc' : ¬ OverdraftProtection.canWithdraw c.balance c.overdraftLimit a = true := by
            simp [OverdraftProtection.canWithdraw, hc]
          unfold CheckingAccount.withdraw
          rw [if_neg hc']
          exact hb
      · unfold CheckingAccount.withdraw OverdraftProtection.canWithdraw
        by_cases hc : a ≤ c.balance + c.overdraftLimit <;>
          simp [hc, CheckingAccount.addTransaction]
  | showAccount => exact ⟨c, rfl, hb, rfl⟩
  | showHist => exact ⟨c, rfl, hb, rfl⟩
  | applyInt => exact ⟨c, rfl, hb, rfl⟩

/-- Helper: running any sequence of dispatched operations whose deposits are
non-negative keeps a Savings account's balance non-negative. -/
lemma savings_runOps_inv (ops : List MenuOp) (s : SavingsAccount)
    (hb : 0 ≤ s.balance) (hr : 0 ≤ s.interestRate)
    (hops : ∀ op ∈ ops, op.depositNonneg = true) :
    ∃ s', runOps (BankAccount.savings s) ops = BankAccount.savings s'
      ∧ 0 ≤ s'.balance ∧ s'.interestRate = s.interestRate := by
  induction ops generalizing s with
  | nil => exact ⟨s, rfl, hb, rfl⟩
  | cons op t ih =>
      obtain ⟨s₁, h1, hb1, hr1⟩ := savings_step_inv s op hb hr (hops op (by simp))
      obtain ⟨s', h2, hb2, hr2⟩ :=
        ih s₁ hb1 (hr1 ▸ hr) (fun o ho => hops o (by simp [ho]))
      refine ⟨s', ?_, hb2, by rw [hr2, hr1]⟩
      unfold runOps at h2 ⊢
      rw [List.foldl_cons, h1]
      exact h2

/-- Helper: running any sequence of dispatched operations whose deposits are
non-negative keeps a Checking account's balance at or above the negated
overdraft limit. -/
lemma checking_runOps_inv (ops : List MenuOp) (c : CheckingAccount)
    (hb : -c.overdraftLimit ≤ c.balance)
    (hops : ∀ op ∈ ops, op.depositNonneg = true) :
    ∃ c', runOps (BankAccount.checking c) ops = BankAccount.checking c'
      ∧ -c.overdraftLimit ≤ c'.balance ∧ c'.overdraftLimit = c.overdraftLimit := by
  induction ops generalizing c with
  | nil => exact ⟨c, rfl, hb, rfl⟩
  | cons op t ih =>
      obtain ⟨c₁, h1, hb1, ho1⟩ := checking_step_inv c op hb (hops op (by simp))
      obtain ⟨c', h2, hb2, ho2⟩ :=
        ih c₁ (ho1 ▸ hb1) (fun o ho => hops o (by simp [ho]))
      refine ⟨c', ?_, by rw [← ho1]; exact hb2, by rw [ho2, ho1]⟩
      unfold runOps at h2 ⊢
      rw [List.foldl_cons, h1]
      exact h2

/-- C3 counterexample: the claim fails as stated.  Starting from a Savings
account with non-negative initial balance 0, the single dispatched operation
deposit(-1) (which the account layer accepts unvalidated) drives the balance
to -1 < 0. -/
theorem balance_invariant_cex :
    (0 : ℚ) ≤ (SavingsAccount.mk ("A") 0 (5/2) []).balance ∧
    (runOps (BankAccount.savings (SavingsAccount.mk ("A") 0 (5/2) []))
        [MenuOp.deposit (-1)]).getBalance < 0 := by
  constructor
  · norm_num
  · show (performOperation (BankAccount.savings (SavingsAccount.mk ("A") 0 (5/2) []))
        (MenuOp.deposit (-1))).2.getBalance < 0
    simp only [performOperation, BankAccount.deposit, SavingsAccount.deposit,
      SavingsAccount.addTransaction, BankAccount.getBalance]
    norm_num

/-- C3 (amended): for every account created with a non-negative initial
balance and every sequence of dispatched deposit/withdraw/applyInterest
operations in which each deposited amount is non-negative, a Savings account
with non-negative interestRate never reaches a negative balance, and a
Checking account with non-negative overdraftLimit never goes below
-overdraftLimit. -/
theorem balance_invariant_spec (s : SavingsAccount) (c : CheckingAccount)
    (ops : List MenuOp) (hops : ∀ op ∈ ops, op.depositNonneg = true) :
    (0 ≤ s.balance → 0 ≤ s.interestRate →
      0 ≤ (runOps (BankAccount.savings s) ops).getBalance) ∧
    (0 ≤ c.balance → 0 ≤ c.overdraftLimit →
      -c.overdraftLimit ≤ (runOps (BankAccount.checking c) ops).getBalance) := by
  constructor
  · intro hb hr
    obtain ⟨s', h, hb', _⟩ := savings_runOps_inv ops s hb hr hops
    rw [h]
    simpa [BankAccount.getBalance] using hb'
  · intro hb ho
    obtain ⟨c', h, hb', _⟩ := checking_runOps_inv ops c (by linarith) hops
    rw [h]
    simpa [BankAccount.getBalance] using hb'

/-- C3 witness: the invariant holds on the seed accounts (Laurie, 5000,
2.5) and (Larry, 1000, 500) under a concrete deposit, withdrawal and
interest application. -/
theorem balance_invariant_spec_witness :
    0 ≤ (runOps (BankAccount.savings (SavingsAccount.mk ("Laurie") 5000 (5/2) []))
      [MenuOp.deposit 5, MenuOp.withdraw 3, MenuOp.applyInt]).getBalance ∧
    -(500 : ℚ) ≤ (runOps (BankAccount.checking (CheckingAccount.mk ("Larry") 1000 500 []))
      [MenuOp.deposit 5, MenuOp.withdraw 3, MenuOp.applyInt]).getBalance := by
  have h := balance_invariant_spec (SavingsAccount.mk ("Laurie") 5000 (5/2) [])
    (CheckingAccount.mk ("Larry") 1000 500 [])
    [MenuOp.deposit 5, MenuOp.withdraw 3, MenuOp.applyInt] (by decide)
  exact ⟨h.1 (by norm_num) (by norm_num), h.2 (by norm_num) (by norm_num)⟩
